import Mathlib

/-!
Verification of the prometheus-engine runtime core: entity/component
composition (`Entity.ts`, `EntityManager.ts`), scene management
(`SceneManager`), asset bundle loading (`AssetManager.ts`) and viewport
adaptation (`ViewportManager`).  JavaScript `Map` objects are embedded as
insertion-ordered association lists; nondeterministic environment reads
(`Date.now()`, `Math.random()`, `window.innerWidth/innerHeight`) and the
underlying asset loader become explicit parameters of the operations that
perform them.
-/

namespace Prometheus

/-! ## Association-list model of the JavaScript `Map` -/

/-- `Map.get(k)` : value of the first entry whose key is `k`. -/
def findVal (k : String) : List (String × α) → Option α
  | [] => none
  | (k', v) :: rest => if k' = k then some v else findVal k rest

/-- `Map.has(k)`. -/
def hasKey (k : String) (l : List (String × α)) : Bool :=
  (findVal k l).isSome

/-- `Map.delete(k)` (here: removes every entry with key `k`). -/
def eraseKey (k : String) (l : List (String × α)) : List (String × α) :=
  l.filter (fun p => p.1 ≠ k)

/-- `Map.set(k, v)` : replaces the first entry with key `k` in place,
appends a new entry when `k` is absent. -/
def setVal (k : String) (v : α) : List (String × α) → List (String × α)
  | [] => [(k, v)]
  | (k', v') :: rest => if k' = k then (k, v) :: rest else (k', v') :: setVal k v rest

theorem findVal_setVal_self (k : String) (v : α) (l : List (String × α)) :
    findVal k (setVal k v l) = some v := by
  induction l with
  | nil => simp [setVal, findVal]
  | cons p rest ih =>
      by_cases h : p.1 = k
      · simp [setVal, findVal, h]
      · simp [setVal, findVal, h, ih]

theorem findVal_setVal_ne (k k' : String) (v : α) (l : List (String × α))
    (h : k' ≠ k) : findVal k' (setVal k v l) = findVal k' l := by
  have h1 : ¬ k = k' := fun e => h e.symm
  induction l with
  | nil => simp [setVal, findVal, h1]
  | cons p rest ih =>
      by_cases hp : p.1 = k
      · have hne : ¬ p.1 = k' := by
          rw [hp]; exact h1
        simp [setVal, findVal, hp, h1, hne]
      · simp [setVal, findVal, hp, ih]

theorem findVal_eq_none_iff (k : String) (l : List (String × α)) :
    findVal k l = none ↔ ∀ p ∈ l, p.1 ≠ k := by
  induction l with
  | nil => simp [findVal]
  | cons p rest ih =>
      by_cases h : p.1 = k
      · simp [findVal, h]
      · simp [findVal, h, ih]

/-! ## Components (`Component.ts`)

Observable lifecycle side effects are modelled by counters: every call of
`init` / `destroy` / `update` on an instance bumps the matching counter.
The `entity` back-reference is modelled by the owning entity's id. -/

structure Component where
  entityRef : Option String := none
  enabled : Bool := true
  initCount : Nat := 0
  destroyCount : Nat := 0
  updateCount : Nat := 0
deriving Repr, DecidableEq

def Component.init (c : Component) : Component :=
  { c with initCount := c.initCount + 1 }

def Component.destroy (c : Component) : Component :=
  { c with destroyCount := c.destroyCount + 1 }

def Component.update (_deltaTime : ℚ) (c : Component) : Component :=
  { c with updateCount := c.updateCount + 1 }

/-! ## Entities (`Entity.ts`) -/

structure Entity where
  id : String
  name : String
  active : Bool := true
  components : List (String × Component) := []
  destroyCount : Nat := 0
  updateCount : Nat := 0
deriving Repr, DecidableEq

/-- `Entity.removeComponent(componentType)`: returns whether a component was
removed, the updated entity, and the final state of the destroyed component
instance (its `destroy()` ran, then its entity reference was cleared). -/
def Entity.removeComponent (e : Entity) (componentType : String) :
    Bool × Entity × Option Component :=
  match findVal componentType e.components with
  | none => (false, e, none)
  | some component =>
      let destroyed := { component.destroy with entityRef := none }
      (true, { e with components := eraseKey componentType e.components }, some destroyed)

/-- `Entity.addComponent(component, componentType)`: replaces (and destroys)
any existing component under the key, sets the entity back-reference on the
new component, stores it, runs its `init()` and returns it.  The third result
is the final state of the replaced instance, when there was one. -/
def Entity.addComponent (e : Entity) (component : Component) (componentType : String) :
    Component × Entity × Option Component :=
  let rem :=
    if hasKey componentType e.components then
      ((e.removeComponent componentType).2.1, (e.removeComponent componentType).2.2)
    else (e, none)
  let stored := Component.init { component with entityRef := some e.id }
  (stored, { rem.1 with components := setVal componentType stored rem.1.components }, rem.2)

def Entity.getComponent (e : Entity) (componentType : String) : Option Component :=
  findVal componentType e.components

def Entity.hasComponent (e : Entity) (componentType : String) : Bool :=
  hasKey componentType e.components

/-- `Entity.update(deltaTime)`: no-op when inactive, otherwise updates every
enabled component (the entity's own update counter records the call). -/
def Entity.update (deltaTime : ℚ) (e : Entity) : Entity :=
  if e.active then
    { e with updateCount := e.updateCount + 1,
             components := e.components.map
               (fun p => (p.1, if p.2.enabled then p.2.update deltaTime else p.2)) }
  else e

/-- `Entity.destroy()`: destroys and drops all components, destroys the
container. -/
def Entity.destroy (e : Entity) : Entity :=
  { e with destroyCount := e.destroyCount + 1, components := [] }

/-- C8: `removeComponent` on a never-added key returns false with no destroy
side effect, and `addComponent` under an occupied key destroys the first
instance exactly once, attaches the second with the entity back-reference
set, runs its `init()` and returns it as the stored component. -/
theorem C8_component_replace_and_missing_remove (e : Entity) (c cOld : Component)
    (key : String) :
    (findVal key e.components = none →
      e.removeComponent key = (false, e, none)) ∧
    (findVal key e.components = some cOld →
      (e.addComponent c key).2.2 =
        some { cOld with destroyCount := cOld.destroyCount + 1, entityRef := none } ∧
      (e.addComponent c key).1 =
        { c with entityRef := some e.id, initCount := c.initCount + 1 } ∧
      findVal key (e.addComponent c key).2.1.components = some (e.addComponent c key).1) := by
  constructor
  · intro h
    simp [Entity.removeComponent, h]
  · intro h
    have hk : hasKey key e.components = true := by
      simp [hasKey, h]
    refine ⟨?_, ?_, ?_⟩
    · simp [Entity.addComponent, hk, Entity.removeComponent, h, Component.destroy]
    · simp [Entity.addComponent, hk, Component.init]
    · simp [Entity.addComponent, hk, findVal_setVal_self, Component.init]

/-- C8 witness: a concrete entity holding a component under key "sprite". -/
theorem C8_component_replace_and_missing_remove_witness :
    (findVal "physics" (Entity.mk "e1" "hero" true [("sprite", Component.mk none true 1 0 0)] 0 0).components = none ∧
      (Entity.mk "e1" "hero" true [("sprite", Component.mk none true 1 0 0)] 0 0).removeComponent "physics" =
        (false, Entity.mk "e1" "hero" true [("sprite", Component.mk none true 1 0 0)] 0 0, none)) ∧
    (findVal "sprite" (Entity.mk "e1" "hero" true [("sprite", Component.mk none true 1 0 0)] 0 0).components =
        some (Component.mk none true 1 0 0) ∧
      ((Entity.mk "e1" "hero" true [("sprite", Component.mk none true 1 0 0)] 0 0).addComponent
          (Component.mk none true 0 0 0) "sprite").2.2 = some (Component.mk none true 1 1 0)) := by
  refine ⟨⟨by decide, ?_⟩, ⟨by decide, ?_⟩⟩
  · exact (C8_component_replace_and_missing_remove
      (Entity.mk "e1" "hero" true [("sprite", Component.mk none true 1 0 0)] 0 0)
      (Component.mk none true 0 0 0) (Component.mk none true 1 0 0) "physics").1 (by decide)
  · exact ((C8_component_replace_and_missing_remove
      (Entity.mk "e1" "hero" true [("sprite", Component.mk none true 1 0 0)] 0 0)
      (Component.mk none true 0 0 0) (Component.mk none true 1 0 0) "sprite").2 (by decide)).1

/-! ## Entity manager (`EntityManager.ts`)

The manager keeps an id-keyed `Map` of live entities, an add queue, a remove
queue, and a display container (`stage` lists the ids of attached entity
containers in child order).  `createEntity` reads `Date.now()` and
`Math.floor(Math.random() * 1000)`; those two environment reads are explicit
`now` / `rand` arguments here. -/

structure EMState where
  entities : List (String × Entity) := []
  entitiesToAdd : List Entity := []
  entitiesToRemove : List String := []
  stage : List String := []
deriving Repr, DecidableEq

/-- The id string built by `createEntity`:
`entity_` + `Date.now()` + `_` + `Math.floor(Math.random() * 1000)`. -/
def mkEntityId (now rand : Nat) : String :=
  "entity_" ++ toString now ++ "_" ++ toString rand

/-- `EntityManager.removeEntity(id)`: removes the entity's container from the
display tree, destroys the entity and deletes it from the map; returns false
when the id is absent. -/
def EMState.removeEntity (s : EMState) (id : String) : Bool × EMState :=
  match findVal id s.entities with
  | none => (false, s)
  | some _ =>
      (true, { s with stage := s.stage.filter (fun i => i ≠ id),
                      entities := eraseKey id s.entities })

/-- `EntityManager.addEntity(entity)`: replaces (removing and destroying) any
live entity with the same id, then inserts the entity and attaches its
container. -/
def EMState.addEntity (s : EMState) (entity : Entity) : EMState :=
  let s1 := if hasKey entity.id s.entities then (s.removeEntity entity.id).2 else s
  { s1 with entities := s1.entities ++ [(entity.id, entity)],
            stage := s1.stage ++ [entity.id] }

/-- `EntityManager.createEntity(name, addImmediately)`: builds an entity whose
id is `mkEntityId now rand` and either inserts it immediately or queues it. -/
def EMState.createEntity (s : EMState) (now rand : Nat) (name : String)
    (addImmediately : Bool) : Entity × EMState :=
  let entity : Entity := { id := mkEntityId now rand, name := name }
  if addImmediately then (entity, s.addEntity entity)
  else (entity, { s with entitiesToAdd := s.entitiesToAdd ++ [entity] })

/-- `EntityManager.scheduleEntityRemoval(id)`: queues the id only when it is
currently live and not already queued. -/
def EMState.scheduleEntityRemoval (s : EMState) (id : String) : EMState :=
  if hasKey id s.entities && !(s.entitiesToRemove.contains id) then
    { s with entitiesToRemove := s.entitiesToRemove ++ [id] }
  else s

/-- `EntityManager.processEntityQueues()`: adds every queued entity, then
removes every queued id, in that order, clearing both queues. -/
def EMState.processEntityQueues (s : EMState) : EMState :=
  let s1 := s.entitiesToAdd.foldl EMState.addEntity s
  let s2 := { s1 with entitiesToAdd := [] }
  let s3 := s2.entitiesToRemove.foldl (fun t id => (t.removeEntity id).2) s2
  { s3 with entitiesToRemove := [] }

/-- `EntityManager.update(deltaTime)`: flushes the queues, then updates every
active entity. -/
def EMState.update (deltaTime : ℚ) (s : EMState) : EMState :=
  let s1 := s.processEntityQueues
  { s1 with
      entities := s1.entities.map
        (fun p => (p.1, if p.2.active then p.2.update deltaTime else p.2)) }

/-- One call against an `EntityManager`, with the environment values consumed
by `createEntity` recorded in the operation. -/
inductive EMOp where
  | create (now rand : Nat) (name : String) (addImmediately : Bool)
  | scheduleRemoval (id : String)
  | remove (id : String)
deriving Repr, DecidableEq

def EMStep (s : EMState) : EMOp → EMState
  | .create now rand name imm => (s.createEntity now rand name imm).2
  | .scheduleRemoval id => s.scheduleEntityRemoval id
  | .remove id => (s.removeEntity id).2

def EMRun (ops : List EMOp) : EMState := ops.foldl EMStep {}

/-- C1: two `createEntity` calls on the same manager during the same
millisecond (`Date.now() = 123`) whose `Math.floor(Math.random() * 1000)`
draws both equal 42 return entities with the same id, `entity_123_42`;
the generator cannot guarantee manager-unique ids. -/
theorem C1_duplicate_entity_id :
    ((EMState.mk [] [] [] []).createEntity 123 42 "first" true).1.id =
      (((EMState.mk [] [] [] []).createEntity 123 42 "first" true).2.createEntity
        123 42 "second" true).1.id ∧
    ((EMState.mk [] [] [] []).createEntity 123 42 "first" true).1.id =
      "entity_123_42" := by
  constructor
  · rfl
  · rfl

/-! ## Spec-level model of the entity live set

The specification describes the live set after a queue flush as "the
entities added minus those removed".  `SpecSets` records ids only: an add
(immediate or deferred) inserts an id, a removal takes effect only on a
currently live id, and the flush applies the deferred adds before the
deferred removals, exactly the order the spec gives for
`processEntityQueues`. -/

structure SpecSets where
  live : List String := []
  pendingAdd : List String := []
  pendingRemove : List String := []
deriving Repr, DecidableEq

def specInsert (l : List String) (id : String) : List String :=
  l.filter (fun i => i ≠ id) ++ [id]

def specRemove (l : List String) (id : String) : List String :=
  l.filter (fun i => i ≠ id)

def specStep (a : SpecSets) : EMOp → SpecSets
  | .create now rand _ imm =>
      if imm then { a with live := specInsert a.live (mkEntityId now rand) }
      else { a with pendingAdd := a.pendingAdd ++ [mkEntityId now rand] }
  | .scheduleRemoval id =>
      if a.live.contains id && !(a.pendingRemove.contains id) then
        { a with pendingRemove := a.pendingRemove ++ [id] }
      else a
  | .remove id => { a with live := specRemove a.live id }

def specFlush (a : SpecSets) : List String :=
  a.pendingRemove.foldl specRemove (a.pendingAdd.foldl specInsert a.live)

/-- The ids the spec-level model leaves live after running a trace and then
flushing the queues. -/
def specLive (ops : List EMOp) : List String :=
  specFlush (ops.foldl specStep {})

/-- Abstraction from the manager state to the spec-level id sets. -/
def absEM (s : EMState) : SpecSets :=
  { live := s.entities.map Prod.fst,
    pendingAdd := s.entitiesToAdd.map Entity.id,
    pendingRemove := s.entitiesToRemove }

theorem map_fst_eraseKey (k : String) (l : List (String × α)) :
    (eraseKey k l).map Prod.fst = (l.map Prod.fst).filter (fun i => i ≠ k) := by
  induction l with
  | nil => simp [eraseKey]
  | cons p rest ih =>
      by_cases h : p.1 = k <;>
        simp [eraseKey, List.filter_cons, h, ih] <;> simp [eraseKey] at ih <;> exact ih

theorem hasKey_iff_mem_keys (k : String) (l : List (String × α)) :
    hasKey k l = true ↔ k ∈ l.map Prod.fst := by
  induction l with
  | nil => simp [hasKey, findVal]
  | cons p rest ih =>
      by_cases h : p.1 = k
      · simp [hasKey, findVal, h]
      · simp only [hasKey, findVal, h, if_false, List.map_cons, List.mem_cons]
        constructor
        · intro hs
          exact Or.inr (ih.mp hs)
        · intro hm
          rcases hm with he | hm
          · exact absurd he.symm h
          · exact ih.mpr hm

theorem filter_ne_of_findVal_none (k : String) (l : List (String × α))
    (h : findVal k l = none) :
    (l.map Prod.fst).filter (fun i => i ≠ k) = l.map Prod.fst := by
  rw [List.filter_eq_self]
  intro a ha
  rcases List.mem_map.mp ha with ⟨p, hp, rfl⟩
  have hne := (findVal_eq_none_iff k l).mp h p hp
  simpa using hne

theorem absEM_removeEntity (s : EMState) (id : String) :
    absEM (s.removeEntity id).2 =
      { absEM s with live := specRemove (absEM s).live id } := by
  cases h : findVal id s.entities with
  | none =>
      have h2 : specRemove (absEM s).live id = (absEM s).live :=
        filter_ne_of_findVal_none _ _ h
      rw [h2]
      simp [EMState.removeEntity, h]
  | some e =>
      have h2 : ((eraseKey id s.entities).map Prod.fst) = specRemove (absEM s).live id :=
        map_fst_eraseKey id s.entities
      simp [EMState.removeEntity, h, absEM] at h2 ⊢
      exact h2

theorem absEM_addEntity (s : EMState) (e : Entity) :
    absEM (s.addEntity e) =
      { absEM s with live := specInsert (absEM s).live e.id } := by
  by_cases h : hasKey e.id s.entities
  · cases hv : findVal e.id s.entities with
    | none => simp [hasKey, hv] at h
    | some x =>
        have h2 : ((eraseKey e.id s.entities).map Prod.fst) =
            (s.entities.map Prod.fst).filter (fun i => i ≠ e.id) :=
          map_fst_eraseKey e.id s.entities
        simp [EMState.addEntity, h, EMState.removeEntity, hv, absEM, specInsert, h2]
  · have hv : findVal e.id s.entities = none := by
      cases hv : findVal e.id s.entities with
      | none => rfl
      | some x => simp [hasKey, hv] at h
    have h2 : (s.entities.map Prod.fst).filter (fun i => i ≠ e.id) =
        s.entities.map Prod.fst :=
      filter_ne_of_findVal_none _ _ hv
    simp only [ne_eq, decide_not] at h2
    simp [EMState.addEntity, h, absEM, specInsert]
    exact h2.symm

theorem absEM_EMStep (s : EMState) (op : EMOp) :
    absEM (EMStep s op) = specStep (absEM s) op := by
  cases op with
  | create now rand name imm =>
      cases imm with
      | true => simp [EMStep, EMState.createEntity, specStep, absEM_addEntity]
      | false => simp [EMStep, EMState.createEntity, specStep, absEM]
  | scheduleRemoval id =>
      have hmem := hasKey_iff_mem_keys id s.entities
      by_cases hk : hasKey id s.entities = true
      · by_cases hr : id ∈ s.entitiesToRemove
        · simp [EMStep, EMState.scheduleEntityRemoval, specStep, hk, hr,
            hmem.mp hk, absEM]
        · simp [EMStep, EMState.scheduleEntityRemoval, specStep, hk, hr,
            hmem.mp hk, absEM]
      · have hlive : id ∉ s.entities.map Prod.fst := fun hm => hk (hmem.mpr hm)
        simp [EMStep, EMState.scheduleEntityRemoval, specStep, hk, hlive, absEM]
  | remove id => simpa [EMStep, specStep] using absEM_removeEntity s id

theorem absEM_foldl_addEntity (es : List Entity) (s : EMState) :
    absEM (es.foldl EMState.addEntity s) =
      { absEM s with live := (es.map Entity.id).foldl specInsert (absEM s).live } := by
  induction es generalizing s with
  | nil => simp
  | cons e rest ih => simp [List.foldl_cons, ih, absEM_addEntity]

theorem absEM_foldl_removeEntity (ids : List String) (s : EMState) :
    absEM (ids.foldl (fun t id => (t.removeEntity id).2) s) =
      { absEM s with live := ids.foldl specRemove (absEM s).live } := by
  induction ids generalizing s with
  | nil => simp
  | cons id rest ih => simp [List.foldl_cons, ih, absEM_removeEntity]

theorem absEM_clearToAdd (t : EMState) :
    absEM { t with entitiesToAdd := [] } = { absEM t with pendingAdd := [] } := rfl

theorem absEM_clearToRemove (t : EMState) :
    absEM { t with entitiesToRemove := [] } = { absEM t with pendingRemove := [] } := rfl

theorem absEM_processEntityQueues (s : EMState) :
    absEM s.processEntityQueues = SpecSets.mk (specFlush (absEM s)) [] [] := by
  have hrem : (s.entitiesToAdd.foldl EMState.addEntity s).entitiesToRemove = s.entitiesToRemove := by
    simpa [absEM] using congrArg SpecSets.pendingRemove (absEM_foldl_addEntity s.entitiesToAdd s)
  have hlive : (s.entitiesToAdd.foldl EMState.addEntity s).entities.map Prod.fst =
      (s.entitiesToAdd.map Entity.id).foldl specInsert (s.entities.map Prod.fst) := by
    simpa [absEM] using congrArg SpecSets.live (absEM_foldl_addEntity s.entitiesToAdd s)
  unfold EMState.processEntityQueues
  rw [absEM_clearToRemove, absEM_foldl_removeEntity, absEM_clearToAdd, absEM_foldl_addEntity]
  simp [absEM, specFlush, hrem, hlive]

theorem absEM_foldl_EMStep (ops : List EMOp) (s : EMState) :
    absEM (ops.foldl EMStep s) = ops.foldl specStep (absEM s) := by
  induction ops generalizing s with
  | nil => rfl
  | cons op rest ih => simp [List.foldl_cons, ih, absEM_EMStep]

theorem nodup_specInsert (l : List String) (id : String) (h : l.Nodup) :
    (specInsert l id).Nodup := by
  have h1 : (l.filter (fun i => i ≠ id)).Nodup := h.filter _
  have h2 : id ∉ l.filter (fun i => i ≠ id) := by
    intro hm
    have := List.of_mem_filter hm
    simp at this
  refine List.Nodup.append h1 (List.nodup_singleton id) ?_
  intro a ha hb
  simp only [List.mem_singleton] at hb
  subst hb
  exact h2 ha

theorem nodup_specRemove (l : List String) (id : String) (h : l.Nodup) :
    (specRemove l id).Nodup := h.filter _

theorem nodup_foldl_specInsert (ids l : List String) (h : l.Nodup) :
    (ids.foldl specInsert l).Nodup := by
  induction ids generalizing l with
  | nil => exact h
  | cons id rest ih => exact ih _ (nodup_specInsert _ _ h)

theorem nodup_foldl_specRemove (ids l : List String) (h : l.Nodup) :
    (ids.foldl specRemove l).Nodup := by
  induction ids generalizing l with
  | nil => exact h
  | cons id rest ih => exact ih _ (nodup_specRemove _ _ h)

theorem nodup_live_foldl_specStep (ops : List EMOp) (a : SpecSets)
    (h : a.live.Nodup) : (ops.foldl specStep a).live.Nodup := by
  induction ops generalizing a with
  | nil => exact h
  | cons op rest ih =>
      apply ih
      cases op with
      | create now rand name imm =>
          cases imm with
          | true => simpa [specStep] using nodup_specInsert _ _ h
          | false => simpa [specStep] using h
      | scheduleRemoval id =>
          simp only [specStep]
          split <;> exact h
      | remove id => simpa [specStep] using nodup_specRemove _ _ h

theorem nodup_specLive (ops : List EMOp) : (specLive ops).Nodup := by
  unfold specLive specFlush
  apply nodup_foldl_specRemove
  apply nodup_foldl_specInsert
  exact nodup_live_foldl_specStep ops {} List.nodup_nil

/-- Entities as freshly built by `createEntity`: never destroyed, active,
never updated. -/
def freshEntity (e : Entity) : Prop :=
  e.destroyCount = 0 ∧ e.active = true ∧ e.updateCount = 0

/-- Well-formedness of the manager state: every live entry is keyed by its
entity's id and holds a never-destroyed, active, not-yet-updated entity, and
every queued entity is equally fresh. -/
def EMInv (s : EMState) : Prop :=
  (∀ p ∈ s.entities, p.1 = p.2.id ∧ freshEntity p.2) ∧
  (∀ e ∈ s.entitiesToAdd, freshEntity e)

theorem EMInv_removeEntity (s : EMState) (id : String) (h : EMInv s) :
    EMInv (s.removeEntity id).2 := by
  obtain ⟨h1, h2⟩ := h
  cases hv : findVal id s.entities with
  | none =>
      constructor
      · intro p hp
        exact h1 p (by simpa [EMState.removeEntity, hv] using hp)
      · intro e' he'
        exact h2 e' (by simpa [EMState.removeEntity, hv] using he')
  | some e =>
      constructor
      · intro p hp
        have hp' : p ∈ eraseKey id s.entities := by
          simpa [EMState.removeEntity, hv] using hp
        exact h1 p (List.mem_of_mem_filter hp')
      · intro e' he'
        exact h2 e' (by simpa [EMState.removeEntity, hv] using he')

theorem EMInv_addEntity (s : EMState) (e : Entity) (h : EMInv s)
    (hf : freshEntity e) : EMInv (s.addEntity e) := by
  have hbase : EMInv (if hasKey e.id s.entities then (s.removeEntity e.id).2 else s) := by
    by_cases hk : hasKey e.id s.entities
    · simpa [hk] using EMInv_removeEntity s e.id h
    · simpa [hk] using h
  obtain ⟨h1, h2⟩ := hbase
  constructor
  · intro p hp
    have hp' : p ∈ (if hasKey e.id s.entities then (s.removeEntity e.id).2 else s).entities
        ∨ p = (e.id, e) := by
      simpa [EMState.addEntity, List.mem_append] using hp
    rcases hp' with hp' | rfl
    · exact h1 p hp'
    · exact ⟨rfl, hf⟩
  · intro e' he'
    exact h2 e' (by simpa [EMState.addEntity] using he')

theorem EMInv_EMStep (s : EMState) (op : EMOp) (h : EMInv s) :
    EMInv (EMStep s op) := by
  cases op with
  | create now rand name imm =>
      cases imm with
      | true =>
          exact EMInv_addEntity s _ h ⟨rfl, rfl, rfl⟩
      | false =>
          obtain ⟨h1, h2⟩ := h
          constructor
          · intro p hp
            exact h1 p (by simpa [EMStep, EMState.createEntity] using hp)
          · intro e' he'
            have he'' : e' ∈ s.entitiesToAdd ∨
                e' = ({ id := mkEntityId now rand, name := name } : Entity) := by
              simpa [EMStep, EMState.createEntity, List.mem_append] using he'
            rcases he'' with he'' | rfl
            · exact h2 e' he''
            · exact ⟨rfl, rfl, rfl⟩
  | scheduleRemoval id =>
      obtain ⟨h1, h2⟩ := h
      constructor
      · intro p hp
        apply h1 p
        simp only [EMStep, EMState.scheduleEntityRemoval] at hp
        split at hp <;> simpa using hp
      · intro e' he'
        apply h2 e'
        simp only [EMStep, EMState.scheduleEntityRemoval] at he'
        split at he' <;> simpa using he'
  | remove id => exact EMInv_removeEntity s id h

theorem EMInv_foldl_addEntity (es : List Entity) (s : EMState) (h : EMInv s)
    (hf : ∀ e ∈ es, freshEntity e) : EMInv (es.foldl EMState.addEntity s) := by
  induction es generalizing s with
  | nil => exact h
  | cons e rest ih =>
      exact ih _ (EMInv_addEntity s e h (hf e (by simp)))
        (fun e' he' => hf e' (by simp [he']))

theorem EMInv_foldl_removeEntity (ids : List String) (s : EMState) (h : EMInv s) :
    EMInv (ids.foldl (fun t id => (t.removeEntity id).2) s) := by
  induction ids generalizing s with
  | nil => exact h
  | cons id rest ih => exact ih _ (EMInv_removeEntity s id h)

theorem EMInv_clearToAdd (t : EMState) (h : EMInv t) :
    EMInv { t with entitiesToAdd := [] } := by
  obtain ⟨h1, h2⟩ := h
  exact ⟨fun p hp => h1 p hp, fun e he => by simp at he⟩

theorem EMInv_clearToRemove (t : EMState) (h : EMInv t) :
    EMInv { t with entitiesToRemove := [] } := by
  obtain ⟨h1, h2⟩ := h
  exact ⟨fun p hp => h1 p hp, fun e he => h2 e he⟩

theorem EMInv_processEntityQueues (s : EMState) (h : EMInv s) :
    EMInv s.processEntityQueues := by
  unfold EMState.processEntityQueues
  apply EMInv_clearToRemove
  apply EMInv_foldl_removeEntity
  apply EMInv_clearToAdd
  exact EMInv_foldl_addEntity _ _ h h.2

theorem EMInv_EMRun (ops : List EMOp) : EMInv (EMRun ops) := by
  have key : ∀ (l : List EMOp) (s : EMState), EMInv s → EMInv (l.foldl EMStep s) := by
    intro l
    induction l with
    | nil => exact fun s h => h
    | cons op rest ih => exact fun s h => ih _ (EMInv_EMStep s op h)
  exact key ops {} ⟨fun p hp => by simp at hp, fun e he => by simp at he⟩

theorem update_keys (dt : ℚ) (t : EMState) :
    (EMState.update dt t).entities.map Prod.fst =
      t.processEntityQueues.entities.map Prod.fst := by
  simp [EMState.update, List.map_map, Function.comp_def]

/-- C3 counterexample: in the trace that creates an entity with
`addImmediately = false` and then calls `scheduleEntityRemoval` on its id,
the id was both added and had its removal requested, yet after `update` the
live set still contains it — `scheduleEntityRemoval` ignores ids that are
still sitting in the add queue, so the live set is not "the entities added
minus those removed" for every call sequence. -/
theorem C3_deferred_removal_counterexample :
    (EMState.update 0 (EMRun [EMOp.create 5 0 "ghost" false,
        EMOp.scheduleRemoval (mkEntityId 5 0)])).entities.map Prod.fst =
      [mkEntityId 5 0] ∧
    EMOp.scheduleRemoval (mkEntityId 5 0) ∈
      [EMOp.create 5 0 "ghost" false, EMOp.scheduleRemoval (mkEntityId 5 0)] := by
  exact ⟨by decide, by decide⟩

/-- C3 (amended): for every call sequence, `update(dt)` drains the add queue
and then the removal queue, leaving both empty; afterwards the live keys are
exactly the spec-level set "added minus effectively removed" (`specLive`,
where a removal request only takes effect on an id that is live when the
request is made), without duplicates, every entry keyed by its entity's id
and holding a never-destroyed entity; and the update pass bumps the update
counter of exactly the live entities whose `active` flag is set, after the
queues are flushed. -/
theorem C3_queue_flush_refines_spec :
    (∀ (ops : List EMOp) (dt : ℚ),
      (EMState.update dt (EMRun ops)).entitiesToAdd = [] ∧
      (EMState.update dt (EMRun ops)).entitiesToRemove = [] ∧
      (EMState.update dt (EMRun ops)).entities.map Prod.fst = specLive ops ∧
      ((EMState.update dt (EMRun ops)).entities.map Prod.fst).Nodup ∧
      (∀ p ∈ (EMState.update dt (EMRun ops)).entities,
        p.1 = p.2.id ∧ p.2.destroyCount = 0 ∧ p.2.active = true ∧ p.2.updateCount = 1)) ∧
    (∀ (t : EMState) (dt : ℚ),
      (EMState.update dt t).entities.map (fun p => (p.1, p.2.updateCount)) =
        t.processEntityQueues.entities.map
          (fun p => (p.1, p.2.updateCount + if p.2.active then 1 else 0))) := by
  constructor
  · intro ops dt
    have habs := absEM_processEntityQueues (EMRun ops)
    have hrun : absEM (EMRun ops) = ops.foldl specStep {} := absEM_foldl_EMStep ops {}
    have hlive : (EMRun ops).processEntityQueues.entities.map Prod.fst = specLive ops := by
      rw [show (EMRun ops).processEntityQueues.entities.map Prod.fst =
          (absEM (EMRun ops).processEntityQueues).live from rfl,
        congrArg SpecSets.live habs, hrun]
      rfl
    have hqAdd : (EMRun ops).processEntityQueues.entitiesToAdd = [] := by
      have h2 : (EMRun ops).processEntityQueues.entitiesToAdd.map Entity.id = [] :=
        congrArg SpecSets.pendingAdd habs
      exact List.map_eq_nil_iff.mp h2
    have hqRem : (EMRun ops).processEntityQueues.entitiesToRemove = [] :=
      congrArg SpecSets.pendingRemove habs
    refine ⟨hqAdd, hqRem, ?_, ?_, ?_⟩
    · rw [update_keys]
      exact hlive
    · rw [update_keys, hlive]
      exact nodup_specLive ops
    · intro p hp
      have hmem : ∃ q ∈ (EMRun ops).processEntityQueues.entities,
          (q.1, if q.2.active then q.2.update dt else q.2) = p := by
        simpa [EMState.update, List.mem_map] using hp
      obtain ⟨q, hq, rfl⟩ := hmem
      have hq' := (EMInv_processEntityQueues _ (EMInv_EMRun ops)).1 q hq
      have hid : q.1 = q.2.id := hq'.1
      have hd : q.2.destroyCount = 0 := hq'.2.1
      have ha : q.2.active = true := hq'.2.2.1
      have hu : q.2.updateCount = 0 := hq'.2.2.2
      simp [ha, Entity.update, hid, hd, hu]
  · intro t dt
    simp only [EMState.update, List.map_map]
    apply List.map_congr_left
    intro a _
    by_cases ha : a.2.active <;> simp [Function.comp_def, Entity.update, ha]

/-- C3 witness: a concrete trace with one immediate add, one deferred add and
one effective removal; the surviving entity is live, keyed by its id, never
destroyed, active, and was updated exactly once. -/
theorem C3_queue_flush_refines_spec_witness :
    (mkEntityId 2 9, Entity.mk (mkEntityId 2 9) "b" true [] 0 1) ∈
      (EMState.update 0 (EMRun [EMOp.create 1 7 "a" true, EMOp.create 2 9 "b" false,
        EMOp.scheduleRemoval (mkEntityId 1 7)])).entities ∧
    ((mkEntityId 2 9, Entity.mk (mkEntityId 2 9) "b" true [] 0 1).1 =
        (mkEntityId 2 9, Entity.mk (mkEntityId 2 9) "b" true [] 0 1).2.id ∧
      (Entity.mk (mkEntityId 2 9) "b" true [] 0 1).destroyCount = 0 ∧
      (Entity.mk (mkEntityId 2 9) "b" true [] 0 1).active = true ∧
      (Entity.mk (mkEntityId 2 9) "b" true [] 0 1).updateCount = 1) :=
  ⟨by decide,
    (C3_queue_flush_refines_spec.1
      [EMOp.create 1 7 "a" true, EMOp.create 2 9 "b" false,
        EMOp.scheduleRemoval (mkEntityId 1 7)] 0).2.2.2.2
      (mkEntityId 2 9, Entity.mk (mkEntityId 2 9) "b" true [] 0 1) (by decide)⟩

/-! ## Scenes and the scene manager (`Scene.ts`, `SceneManager`)

Scene lifecycle side effects are counters, as for components.  The manager
is keyed by scene name (`scenes.set(scene.name, scene)`); `Scene.name` is
read-only, and the active-scene object reference is represented by the name
under which the active scene is registered.  `stage` lists the names of the
scenes whose containers are attached to the manager's container, in child
order. -/

structure Scene where
  name : String
  active : Bool := false
  initCount : Nat := 0
  enterCount : Nat := 0
  exitCount : Nat := 0
  destroyCount : Nat := 0
deriving Repr, DecidableEq

def Scene.init (sc : Scene) : Scene := { sc with initCount := sc.initCount + 1 }

/-- `Scene.enter()`: sets the active flag. -/
def Scene.enter (sc : Scene) : Scene :=
  { sc with active := true, enterCount := sc.enterCount + 1 }

/-- `Scene.exit()`: clears the active flag. -/
def Scene.exit (sc : Scene) : Scene :=
  { sc with active := false, exitCount := sc.exitCount + 1 }

def Scene.destroy (sc : Scene) : Scene :=
  { sc with destroyCount := sc.destroyCount + 1 }

structure SMState where
  scenes : List (String × Scene) := []
  activeScene : Option String := none
  stage : List String := []
deriving Repr, DecidableEq

/-- `SceneManager.addScene(scene)`: when the name is taken, clears the
active-scene reference if the old scene was the active one, then destroys
the old scene (detaching its container); installs the new scene under the
name and calls its `init()`.  Also returns the final state of the destroyed
previous scene, when there was one. -/
def SMState.addScene (s : SMState) (scene : Scene) : SMState × Option Scene :=
  let destroyedOld := (findVal scene.name s.scenes).map Scene.destroy
  let s1 :=
    if hasKey scene.name s.scenes then
      let s' := if s.activeScene = some scene.name then { s with activeScene := none } else s
      { s' with stage := s'.stage.filter (fun n => n ≠ scene.name) }
    else s
  ({ s1 with scenes := setVal scene.name (Scene.init scene) s1.scenes }, destroyedOld)

/-- `SceneManager.switchScene(name)`: returns false and changes nothing when
the name is unregistered; otherwise exits and detaches the current active
scene (when there is one), attaches the requested scene's container, calls
its `enter()` and records it as active. -/
def SMState.switchScene (s : SMState) (sceneName : String) : SMState × Bool :=
  match findVal sceneName s.scenes with
  | none => (s, false)
  | some _ =>
      let s1 :=
        match s.activeScene with
        | none => s
        | some activeName =>
            match findVal activeName s.scenes with
            | none => { s with stage := s.stage.filter (fun n => n ≠ activeName) }
            | some activeSc =>
                { s with scenes := setVal activeName (Scene.exit activeSc) s.scenes,
                         stage := s.stage.filter (fun n => n ≠ activeName) }
      match findVal sceneName s1.scenes with
      | none => (s1, true)
      | some current =>
          ({ s1 with scenes := setVal sceneName (Scene.enter current) s1.scenes,
                     stage := s1.stage.filter (fun n => n ≠ sceneName) ++ [sceneName],
                     activeScene := some sceneName }, true)

theorem setVal_sole (k : String) (v : α) (l : List (String × α))
    (hnodup : (l.map Prod.fst).Nodup) :
    ∀ p ∈ setVal k v l, p.1 = k → p.2 = v := by
  induction l with
  | nil =>
      intro p hp hk
      simp [setVal] at hp
      rw [hp]
  | cons q rest ih =>
      intro p hp hk
      by_cases hq : q.1 = k
      · simp only [setVal, hq, if_true] at hp
        rcases List.mem_cons.mp hp with rfl | hp
        · rfl
        · exfalso
          have hqmem : q.1 ∈ rest.map Prod.fst := by
            rw [hq, ← hk]
            exact List.mem_map_of_mem Prod.fst hp
          simp only [List.map_cons, List.nodup_cons] at hnodup
          exact hnodup.1 hqmem
      · simp only [setVal, hq, if_false] at hp
        rcases List.mem_cons.mp hp with rfl | hp
        · exact absurd hk hq
        · simp only [List.map_cons, List.nodup_cons] at hnodup
          exact ih hnodup.2 p hp hk

theorem filter_ne_idem (l : List String) (n : String) :
    (l.filter (fun m => m ≠ n)).filter (fun m => m ≠ n) = l.filter (fun m => m ≠ n) := by
  rw [List.filter_filter]
  simp

/-- C6: switching to an unregistered scene name returns false and leaves the
manager unchanged: the active scene keeps its flag, its container attachment
and its active-scene role. -/
theorem C6_switchScene_unregistered (s : SMState) (sceneName : String)
    (h : findVal sceneName s.scenes = none) :
    s.switchScene sceneName = (s, false) := by
  simp [SMState.switchScene, h]

/-- C6 witness: a manager with an attached active scene "menu" and a switch
to the unregistered name "missing". -/
theorem C6_switchScene_unregistered_witness :
    findVal "missing" (SMState.mk [("menu", Scene.mk "menu" true 1 1 0 0)]
        (some "menu") ["menu"]).scenes = none ∧
    (SMState.mk [("menu", Scene.mk "menu" true 1 1 0 0)] (some "menu")
        ["menu"]).switchScene "missing" =
      (SMState.mk [("menu", Scene.mk "menu" true 1 1 0 0)] (some "menu") ["menu"], false) :=
  ⟨by decide,
    C6_switchScene_unregistered
      (SMState.mk [("menu", Scene.mk "menu" true 1 1 0 0)] (some "menu") ["menu"])
      "missing" (by decide)⟩

/-- C7: re-registering a name destroys the previously registered scene
exactly once, clears the active-scene reference first when that scene was
active, makes the new scene the sole scene under the name, and runs the new
scene's `init()`. -/
theorem C7_addScene_replaces (s : SMState) (oldSc newSc : Scene) (n : String)
    (hfind : findVal n s.scenes = some oldSc) (hname : newSc.name = n)
    (hnodup : (s.scenes.map Prod.fst).Nodup) :
    (s.addScene newSc).2 = some (Scene.destroy oldSc) ∧
    (Scene.destroy oldSc).destroyCount = oldSc.destroyCount + 1 ∧
    (s.addScene newSc).1.activeScene =
      (if s.activeScene = some n then none else s.activeScene) ∧
    findVal n (s.addScene newSc).1.scenes = some (Scene.init newSc) ∧
    (∀ p ∈ (s.addScene newSc).1.scenes, p.1 = n → p.2 = Scene.init newSc) ∧
    (Scene.init newSc).initCount = newSc.initCount + 1 := by
  subst hname
  have hk : hasKey newSc.name s.scenes = true := by simp [hasKey, hfind]
  refine ⟨?_, rfl, ?_, ?_, ?_, rfl⟩
  · simp [SMState.addScene, hfind]
  · by_cases hact : s.activeScene = some newSc.name <;>
      simp [SMState.addScene, hk, hact]
  · by_cases hact : s.activeScene = some newSc.name <;>
      simp [SMState.addScene, hk, hact, findVal_setVal_self]
  · intro p hp hpk
    have hp' : p ∈ setVal newSc.name (Scene.init newSc) s.scenes := by
      by_cases hact : s.activeScene = some newSc.name <;>
        simpa [SMState.addScene, hk, hact] using hp
    exact setVal_sole newSc.name (Scene.init newSc) s.scenes hnodup p hp' hpk

/-- C7 witness: replacing the registered active scene "menu" with a fresh
scene of the same name. -/
theorem C7_addScene_replaces_witness :
    (findVal "menu" (SMState.mk [("menu", Scene.mk "menu" true 1 1 0 0)]
        (some "menu") ["menu"]).scenes = some (Scene.mk "menu" true 1 1 0 0) ∧
      (Scene.mk "menu" false 0 0 0 0).name = "menu" ∧
      ((SMState.mk [("menu", Scene.mk "menu" true 1 1 0 0)] (some "menu")
          ["menu"]).scenes.map Prod.fst).Nodup) ∧
    ((SMState.mk [("menu", Scene.mk "menu" true 1 1 0 0)] (some "menu")
        ["menu"]).addScene (Scene.mk "menu" false 0 0 0 0)).2 =
      some (Scene.destroy (Scene.mk "menu" true 1 1 0 0)) :=
  ⟨⟨by decide, by decide, by decide⟩,
    (C7_addScene_replaces
      (SMState.mk [("menu", Scene.mk "menu" true 1 1 0 0)] (some "menu") ["menu"])
      (Scene.mk "menu" true 1 1 0 0) (Scene.mk "menu" false 0 0 0 0) "menu"
      (by decide) (by decide) (by decide)).1⟩

/-- C10: switching to the name of the currently active scene returns true
and re-runs the transition on that same scene: its `exit()` runs (clearing
the active flag), its container is detached and re-attached, then `enter()`
runs, so it ends active and is still the manager's active scene. -/
theorem C10_switchScene_to_active_self (s : SMState) (n : String) (sc : Scene)
    (hactive : s.activeScene = some n) (hfind : findVal n s.scenes = some sc) :
    (s.switchScene n).2 = true ∧
    (s.switchScene n).1.activeScene = some n ∧
    findVal n (s.switchScene n).1.scenes = some (Scene.enter (Scene.exit sc)) ∧
    (Scene.exit sc).active = false ∧
    (Scene.enter (Scene.exit sc)).active = true ∧
    (Scene.enter (Scene.exit sc)).exitCount = sc.exitCount + 1 ∧
    (Scene.enter (Scene.exit sc)).enterCount = sc.enterCount + 1 ∧
    (s.switchScene n).1.stage = s.stage.filter (fun m => m ≠ n) ++ [n] := by
  refine ⟨?_, ?_, ?_, rfl, rfl, rfl, rfl, ?_⟩ <;>
    simp [SMState.switchScene, hfind, hactive, findVal_setVal_self, filter_ne_idem]

/-- C10 witness: re-switching to the active scene "game". -/
theorem C10_switchScene_to_active_self_witness :
    ((SMState.mk [("game", Scene.mk "game" true 1 1 0 0)] (some "game")
        ["game"]).activeScene = some "game" ∧
      findVal "game" (SMState.mk [("game", Scene.mk "game" true 1 1 0 0)]
        (some "game") ["game"]).scenes = some (Scene.mk "game" true 1 1 0 0)) ∧
    ((SMState.mk [("game", Scene.mk "game" true 1 1 0 0)] (some "game")
        ["game"]).switchScene "game").2 = true :=
  ⟨⟨by decide, by decide⟩,
    (C10_switchScene_to_active_self
      (SMState.mk [("game", Scene.mk "game" true 1 1 0 0)] (some "game") ["game"])
      "game" (Scene.mk "game" true 1 1 0 0) (by decide) (by decide)).1⟩

/-! ## Asset manager (`AssetManager.ts`)

Bundles are name-keyed; `loadedBundles` maps a bundle name to its loaded
flag (`Map.get` on a missing key is `undefined`, i.e. falsy — `getD false`).
The asynchronous `Assets.loadBundle` call is an explicit `loader` parameter:
the outcome the underlying loader would produce if it were invoked. -/

structure AMState where
  bundles : List (String × List (String × String)) := []
  loadedBundles : List (String × Bool) := []
deriving Repr, DecidableEq

inductive LoadError where
  | notFound (bundleName : String)
  | loaderFailure (message : String)
deriving Repr, DecidableEq

/-- Result of one `loadBundle` call: the promise outcome, the manager state
afterwards, and whether the underlying loader was invoked. -/
structure LoadOutcome where
  result : Except LoadError Unit
  state : AMState
  loaderInvoked : Bool

/-- `AssetManager.loadBundle(bundleName)`: throws not-found when the bundle
is unregistered; resolves immediately when already loaded; otherwise awaits
the loader — on failure the error is rethrown and the loaded flag is not
set, on success the bundle is marked loaded. -/
def AMState.loadBundle (s : AMState) (bundleName : String)
    (loader : Except String Unit) : LoadOutcome :=
  if ¬ hasKey bundleName s.bundles then
    ⟨Except.error (LoadError.notFound bundleName), s, false⟩
  else if (findVal bundleName s.loadedBundles).getD false then
    ⟨Except.ok (), s, false⟩
  else
    match loader with
    | Except.error e => ⟨Except.error (LoadError.loaderFailure e), s, true⟩
    | Except.ok () =>
        ⟨Except.ok (), { s with loadedBundles := setVal bundleName true s.loadedBundles }, true⟩

/-- C4: `loadBundle` rejects with a not-found error exactly when the bundle
is unregistered; a registered, already-loaded bundle resolves immediately
with no loader invocation and no state change; a loader failure propagates,
leaves the bundle registered but not loaded, and a retry invokes the loader
again. -/
theorem C4_loadBundle_error_protocol (s : AMState) (bundleName : String)
    (loader : Except String Unit) :
    ((s.loadBundle bundleName loader).result =
        Except.error (LoadError.notFound bundleName) ↔
      hasKey bundleName s.bundles = false) ∧
    (hasKey bundleName s.bundles = true →
      (findVal bundleName s.loadedBundles).getD false = true →
      s.loadBundle bundleName loader = ⟨Except.ok (), s, false⟩) ∧
    (∀ msg, hasKey bundleName s.bundles = true →
      (findVal bundleName s.loadedBundles).getD false = false →
      loader = Except.error msg →
      (s.loadBundle bundleName loader).result =
          Except.error (LoadError.loaderFailure msg) ∧
        (s.loadBundle bundleName loader).state = s ∧
        ∀ retryLoader,
          ((s.loadBundle bundleName loader).state.loadBundle bundleName
            retryLoader).loaderInvoked = true) := by
  refine ⟨?_, ?_, ?_⟩
  · constructor
    · intro h
      by_cases hk : hasKey bundleName s.bundles
      · exfalso
        by_cases hl : (findVal bundleName s.loadedBundles).getD false
        · simp [AMState.loadBundle, hk, hl] at h
        · cases loader with
          | error e => simp [AMState.loadBundle, hk, hl] at h
          | ok u =>
              cases u
              simp [AMState.loadBundle, hk, hl] at h
      · simpa using hk
    · intro h
      simp [AMState.loadBundle, h]
  · intro hk hl
    simp [AMState.loadBundle, hk, hl]
  · intro msg hk hl hload
    subst hload
    refine ⟨by simp [AMState.loadBundle, hk, hl], by simp [AMState.loadBundle, hk, hl], ?_⟩
    intro retryLoader
    have hstate : (s.loadBundle bundleName (Except.error msg)).state = s := by
      simp [AMState.loadBundle, hk, hl]
    rw [hstate]
    cases retryLoader with
    | error e => simp [AMState.loadBundle, hk, hl]
    | ok u =>
        cases u
        simp [AMState.loadBundle, hk, hl]

/-- C4 witness: a registered, not yet loaded bundle "level1" whose loader
fails with "network". -/
theorem C4_loadBundle_error_protocol_witness :
    (hasKey "level1" (AMState.mk [("level1", [("bg", "bg.png")])] []).bundles = true ∧
      (findVal "level1" (AMState.mk [("level1", [("bg", "bg.png")])] []).loadedBundles).getD
        false = false) ∧
    ((AMState.mk [("level1", [("bg", "bg.png")])] []).loadBundle "level1"
        (Except.error "network")).result =
      Except.error (LoadError.loaderFailure "network") :=
  ⟨⟨by decide, by decide⟩,
    ((C4_loadBundle_error_protocol (AMState.mk [("level1", [("bg", "bg.png")])] [])
      "level1" (Except.error "network")).2.2 "network" (by decide) (by decide) rfl).1⟩

/-! ## Viewport manager (`ViewportManager`)

Dimensions are rationals (exact arithmetic).  `detectOrientation` reads the
instance fields `width`/`height`, while `detectDeviceType` reads the host
window's `innerWidth`/`innerHeight`; the window dimensions at the moment of
a call are therefore explicit parameters wherever the code reads the
globals. -/

inductive Orientation where
  | landscape
  | portrait
deriving Repr, DecidableEq

inductive DeviceType where
  | mobile
  | tablet
  | desktop
deriving Repr, DecidableEq

structure VPState where
  width : ℚ
  height : ℚ
  designWidth : ℚ
  designHeight : ℚ
  scaleX : ℚ
  scaleY : ℚ
  scale : ℚ
  orientation : Orientation
  maintainAspectRatio : Bool
  deviceType : DeviceType
  tabletThreshold : ℚ
  desktopThreshold : ℚ
deriving Repr, DecidableEq

/-- `detectOrientation()`: landscape iff `this.width >= this.height`. -/
def detectOrientation (width height : ℚ) : Orientation :=
  if height ≤ width then Orientation.landscape else Orientation.portrait

/-- `detectDeviceType()`: thresholds applied to the longer of
`window.innerWidth` and `window.innerHeight` — the window globals, not the
instance fields. -/
def detectDeviceType (windowInnerWidth windowInnerHeight
    tabletThreshold desktopThreshold : ℚ) : DeviceType :=
  let longerDimension := max windowInnerWidth windowInnerHeight
  if longerDimension < tabletThreshold then DeviceType.mobile
  else if longerDimension < desktopThreshold then DeviceType.tablet
  else DeviceType.desktop

/-- `calculateScales()`: per-axis factors from the design size; the uniform
scale is their minimum when the aspect ratio is preserved, else 1. -/
def VPState.calculateScales (s : VPState) : VPState :=
  let sx := s.width / s.designWidth
  let sy := s.height / s.designHeight
  { s with scaleX := sx, scaleY := sy,
           scale := if s.maintainAspectRatio then min sx sy else 1 }

/-- The constructor with the default configuration (design 1920×1080,
aspect ratio preserved, thresholds 768/1024), reading the window size. -/
def mkViewportManager (windowInnerWidth windowInnerHeight : ℚ) : VPState :=
  VPState.calculateScales
    { width := windowInnerWidth, height := windowInnerHeight,
      designWidth := 1920, designHeight := 1080,
      scaleX := 1, scaleY := 1, scale := 1,
      orientation := detectOrientation windowInnerWidth windowInnerHeight,
      maintainAspectRatio := true,
      deviceType := detectDeviceType windowInnerWidth windowInnerHeight 768 1024,
      tabletThreshold := 768, desktopThreshold := 1024 }

/-- `resize(width, height)`: stores the new size, re-derives orientation
(from the stored size) and device type (from the window globals at call
time), recomputes scales, and reports whether each edge-triggered
notification (`onOrientationChange`, `onDeviceTypeChange`) fired. -/
def VPState.resize (s : VPState)
    (width height windowInnerWidth windowInnerHeight : ℚ) :
    VPState × Bool × Bool :=
  let s1 := { s with width := width, height := height }
  let newOrientation := detectOrientation s1.width s1.height
  let newDeviceType := detectDeviceType windowInnerWidth windowInnerHeight
    s1.tabletThreshold s1.desktopThreshold
  let orientationChanged := decide (newOrientation ≠ s1.orientation)
  let deviceTypeChanged := decide (newDeviceType ≠ s1.deviceType)
  let s2 := VPState.calculateScales
    { s1 with orientation := newOrientation, deviceType := newDeviceType }
  (s2, orientationChanged, deviceTypeChanged)

/-- `toScreenCoords(x, y)`: design space to screen space. -/
def VPState.toScreenCoords (s : VPState) (x y : ℚ) : ℚ × ℚ :=
  if s.maintainAspectRatio then
    let scaledWidth := s.designWidth * s.scale
    let scaledHeight := s.designHeight * s.scale
    let offsetX := (s.width - scaledWidth) / 2
    let offsetY := (s.height - scaledHeight) / 2
    (offsetX + x * s.scale, offsetY + y * s.scale)
  else
    (x * s.scaleX, y * s.scaleY)

/-- `toDesignCoords(x, y)`: screen space to design space. -/
def VPState.toDesignCoords (s : VPState) (x y : ℚ) : ℚ × ℚ :=
  if s.maintainAspectRatio then
    let scaledWidth := s.designWidth * s.scale
    let scaledHeight := s.designHeight * s.scale
    let offsetX := (s.width - scaledWidth) / 2
    let offsetY := (s.height - scaledHeight) / 2
    ((x - offsetX) / s.scale, (y - offsetY) / s.scale)
  else
    (x / s.scaleX, y / s.scaleY)

/-- C2: on a viewport constructed at window size 1920×1080, calling
`resize(375, 812)` while the window still reports 1920×1080 yields
orientation portrait but device type desktop, because `detectDeviceType`
reads `window.innerWidth`/`window.innerHeight` instead of the resize
arguments; the documented formula applied to the arguments (longer
dimension 812, thresholds 768/1024) yields tablet. -/
theorem C2_deviceType_reads_window_not_args :
    ((mkViewportManager 1920 1080).resize 375 812 1920 1080).1.orientation =
        Orientation.portrait ∧
    ((mkViewportManager 1920 1080).resize 375 812 1920 1080).1.deviceType =
        DeviceType.desktop ∧
    detectDeviceType 375 812 768 1024 = DeviceType.tablet := by
  refine ⟨by decide, by decide, by decide⟩

/-- C5: `resize` reports an orientation notification exactly when the newly
derived orientation differs from the stored (previous) one, and a device
type notification exactly when the newly derived device type differs from
the stored one; concretely, resizing a desktop-landscape viewport
(1920×1080) to mobile-portrait (375×667, window agreeing) fires both
notifications once, and repeating the same resize fires neither. -/
theorem C5_resize_edge_triggered :
    (∀ (s : VPState) (w h ww wh : ℚ),
      (s.resize w h ww wh).2.1 = decide (detectOrientation w h ≠ s.orientation) ∧
      (s.resize w h ww wh).2.2 =
        decide (detectDeviceType ww wh s.tabletThreshold s.desktopThreshold ≠ s.deviceType)) ∧
    ((mkViewportManager 1920 1080).resize 375 667 375 667).2.1 = true ∧
    ((mkViewportManager 1920 1080).resize 375 667 375 667).2.2 = true ∧
    (((mkViewportManager 1920 1080).resize 375 667 375 667).1.resize 375 667 375 667).2.1 =
      false ∧
    (((mkViewportManager 1920 1080).resize 375 667 375 667).1.resize 375 667 375 667).2.2 =
      false := by
  refine ⟨fun s w h ww wh => ⟨rfl, rfl⟩, by decide, by decide, by decide, by decide⟩

/-- C9: with positive viewport and design dimensions and the scale fields
consistent with `calculateScales`, `toDesignCoords` and `toScreenCoords` are
mutually inverse under exact arithmetic, for both settings of
`maintainAspectRatio`. -/
theorem C9_coordinate_roundtrip (s : VPState) (x y : ℚ)
    (hw : 0 < s.width) (hh : 0 < s.height)
    (hdw : 0 < s.designWidth) (hdh : 0 < s.designHeight)
    (hsx : s.scaleX = s.width / s.designWidth)
    (hsy : s.scaleY = s.height / s.designHeight)
    (hsc : s.scale = if s.maintainAspectRatio then min s.scaleX s.scaleY else 1) :
    s.toDesignCoords (s.toScreenCoords x y).1 (s.toScreenCoords x y).2 = (x, y) ∧
    s.toScreenCoords (s.toDesignCoords x y).1 (s.toDesignCoords x y).2 = (x, y) := by
  have hsxpos : 0 < s.scaleX := hsx ▸ div_pos hw hdw
  have hsypos : 0 < s.scaleY := hsy ▸ div_pos hh hdh
  have hs0 : s.scale ≠ 0 := by
    rw [hsc]
    by_cases hAR : s.maintainAspectRatio
    · simp only [hAR, if_true]
      exact ne_of_gt (lt_min hsxpos hsypos)
    · simp [hAR]
  have hsx0 : s.scaleX ≠ 0 := ne_of_gt hsxpos
  have hsy0 : s.scaleY ≠ 0 := ne_of_gt hsypos
  by_cases hAR : s.maintainAspectRatio
  · constructor
    · simp only [VPState.toScreenCoords, VPState.toDesignCoords, hAR, if_true, Prod.mk.injEq]
      constructor <;> field_simp
    · simp only [VPState.toScreenCoords, VPState.toDesignCoords, hAR, if_true, Prod.mk.injEq]
      constructor <;> field_simp <;> ring
  · constructor
    · simp only [VPState.toScreenCoords, VPState.toDesignCoords, hAR, if_false,
        Bool.false_eq_true, Prod.mk.injEq]
      constructor <;> field_simp
    · simp only [VPState.toScreenCoords, VPState.toDesignCoords, hAR, if_false,
        Bool.false_eq_true, Prod.mk.injEq]
      constructor <;> field_simp

/-- C9 witness: the viewport constructed at window size 960×540 (scale 1/2)
round-trips the design point (100, 50). -/
theorem C9_coordinate_roundtrip_witness :
    (0 < (mkViewportManager 960 540).width ∧ 0 < (mkViewportManager 960 540).height ∧
      0 < (mkViewportManager 960 540).designWidth ∧
      0 < (mkViewportManager 960 540).designHeight ∧
      (mkViewportManager 960 540).scaleX =
        (mkViewportManager 960 540).width / (mkViewportManager 960 540).designWidth ∧
      (mkViewportManager 960 540).scaleY =
        (mkViewportManager 960 540).height / (mkViewportManager 960 540).designHeight ∧
      (mkViewportManager 960 540).scale =
        (if (mkViewportManager 960 540).maintainAspectRatio then
          min (mkViewportManager 960 540).scaleX (mkViewportManager 960 540).scaleY
        else 1)) ∧
    (mkViewportManager 960 540).toDesignCoords
        ((mkViewportManager 960 540).toScreenCoords 100 50).1
        ((mkViewportManager 960 540).toScreenCoords 100 50).2 = (100, 50) :=
  ⟨⟨by decide, by decide, by decide, by decide, rfl, rfl, rfl⟩,
    (C9_coordinate_roundtrip (mkViewportManager 960 540) 100 50 (by decide) (by decide)
      (by decide) (by decide) rfl rfl rfl).1⟩

end Prometheus
